import Mathlib

/-!
Verification of the process/task execution core of `OSKernel2024-46`
(a monolithic kernel layer on top of a modular OS runtime, written in Rust).

The development shallowly embeds the relevant Rust source into Lean:
pure functions become Lean functions, stateful code becomes explicit
state passing, `u64`/`i32` arithmetic is `Nat`/`Int` with explicit
wrapping (`% 2^64`, `% 2^32`) where the Rust types wrap, and fallible
code returns `Option`/`Except`.  External collaborators that the core
only calls through a narrow interface (the address-space owner's
`map_alloc`/`unmap`, the scheduler runtime) are passed in as function
parameters, so every theorem quantifies over their behaviour.

Embedded sources:
  * `src/src/task/heap.rs`    — `HeapManager`
  * `src/src/task/time.rs`    — `TimeStat`
  * `src/arceos/modules/axhal/src/trap.rs` — trap dispatch
  * `src/src/task.rs`         — `wait_pid`, `exec`
  * `src/src/syscall_imp/task/thread.rs`   — `sys_execve`
  * `src/src/syscall_imp/fs/ctl.rs`        — `DirEnt`/`DirBuffer`/`sys_getdents64`
  * `src/vendor/kernel-elf-parser/src/lib.rs` — `get_elf_segments`
-/

/-! ## Common helpers -/

/-- Rust `memory_addr::align_up_4k`: round `x` up to the next multiple of 4096. -/
def align_up_4k (x : Nat) : Nat := ((x + 4095) / 4096) * 4096

/-- Two to the sixty-fourth, the modulus of Rust `u64` arithmetic. -/
def U64MOD : Nat := 18446744073709551616

/-- Rust `u64` wrapping subtraction `a - b` (release-build semantics: the
difference modulo `2^64`; a debug build would panic on underflow). Both
arguments are assumed `< 2^64`, as all values stored in the embedded
states are. -/
def wsub64 (a b : Nat) : Nat := (a + (U64MOD - b % U64MOD)) % U64MOD

/-- Rust `u64` wrapping addition. -/
def wadd64 (a b : Nat) : Nat := (a + b) % U64MOD

/-- Reinterpret `x : Int` as a Rust `i32` value: reduce modulo `2^32` into
`[-2^31, 2^31)`. -/
def wrap32 (x : Int) : Int := (x + 2147483648) % 4294967296 - 2147483648

/-! ## Heap Manager (`src/src/task/heap.rs`)

`HeapManager` tracks the logical heap top and the actually mapped heap
top of one task.  The Rust code reads the configured heap bottom and
maximum size from a generated `crate::config` module and performs
map/unmap through the current task's address space
(`current().task_ext().aspace`); both are external to this component, so
the embedding takes `bottom`/`size` and the map/unmap operations as
parameters (`true` models `Ok`, `false` models `Err`). -/

structure HeapManager where
  heap_top : Nat
  actual_heap_top : Nat
  deriving Repr, DecidableEq

namespace HeapManager

/-- Rust `HeapManager::empty`: both tops start at the configured bottom. -/
def empty (bottom : Nat) : HeapManager := ⟨bottom, bottom⟩

/-- Rust `HeapManager::alloc` (grow).  `mapAlloc start len` models
`aspace.map_alloc(start, len, READ|WRITE|USER, false)` of the external
address-space owner; returning `false` models `Err`. -/
def alloc (bottom size : Nat) (mapAlloc : Nat → Nat → Bool)
    (st : HeapManager) (top : Nat) : Option Nat × HeapManager :=
  if top > bottom + size then
    (none, st)
  else if top ≤ st.actual_heap_top then
    (some top, { st with heap_top := top })
  else
    let aligned_top := align_up_4k top
    if mapAlloc st.actual_heap_top (aligned_top - st.actual_heap_top) then
      (some top, { heap_top := top, actual_heap_top := aligned_top })
    else
      (none, st)

/-- Rust `HeapManager::dealloc` (shrink).  Note the source lowers
`self.heap_top` *before* attempting the unmap, so a failing unmap leaves
the logical top already lowered. `unmap start len` models
`aspace.unmap(start, len)`. -/
def dealloc (bottom : Nat) (unmap : Nat → Nat → Bool)
    (st : HeapManager) (top : Nat) : Option Nat × HeapManager :=
  if top < bottom then
    (none, st)
  else
    let st := { st with heap_top := top }
    let aligned_top := align_up_4k top
    if aligned_top < st.actual_heap_top then
      if unmap aligned_top (st.actual_heap_top - aligned_top) then
        (some top, { st with actual_heap_top := aligned_top })
      else
        (none, st)
    else
      (some top, st)

/-- Rust `HeapManager::set_heap_top`. -/
def set_heap_top (bottom size : Nat) (mapAlloc unmap : Nat → Nat → Bool)
    (st : HeapManager) (top : Nat) : Option Nat × HeapManager :=
  if top = 0 then
    (some st.heap_top, st)
  else if top > st.heap_top then
    alloc bottom size mapAlloc st top
  else
    dealloc bottom unmap st top

/-- One `set_heap_top` call of a call sequence: the requested top plus
the (arbitrary) behaviour of the address-space owner during that call. -/
structure HeapCall where
  top : Nat
  mapAlloc : Nat → Nat → Bool
  unmap : Nat → Nat → Bool

/-- Run a sequence of `set_heap_top` calls, keeping only the state. -/
def runCalls (bottom size : Nat) (st : HeapManager) :
    List HeapCall → HeapManager
  | [] => st
  | c :: cs =>
      runCalls bottom size (set_heap_top bottom size c.mapAlloc c.unmap st c.top).2 cs

/-- The heap invariant of the spec: the logical top stays within the
configured window, the mapped top is page-aligned, and the logical top
never exceeds the mapped top. -/
def Inv (bottom size : Nat) (st : HeapManager) : Prop :=
  bottom ≤ st.heap_top ∧ st.heap_top ≤ bottom + size ∧
    st.actual_heap_top % 4096 = 0 ∧ st.heap_top ≤ st.actual_heap_top

instance (bottom size : Nat) (st : HeapManager) :
    Decidable (Inv bottom size st) := by
  unfold Inv; infer_instance

end HeapManager

/-! ## Time Accountant (`src/src/task/time.rs`)

`TimeStat` accumulates user-mode and kernel-mode ticks.  The tick source
`axhal::time::current_ticks()` is external, so the embedding passes the
current tick value as an argument.  All four fields are Rust `u64`; the
additions and subtractions are embedded with release-build wrapping
semantics (`wadd64`/`wsub64`). -/

structure TimeStat where
  user_time : Nat
  kernel_time : Nat
  last_user_time : Nat
  last_kernel_time : Nat
  deriving Repr, DecidableEq

namespace TimeStat

/-- Rust `TimeStat::new` at tick `now`. -/
def new (now : Nat) : TimeStat := ⟨0, 0, 0, now⟩

/-- Rust `TimeStat::enter_uspace` at tick `now`: record `now` as the last
entry into user mode and charge `now - last_kernel_time` (a bare `u64`
subtraction in the source — no clamping) to the kernel counter. -/
def enter_uspace (now : Nat) (st : TimeStat) : TimeStat :=
  { st with
    last_user_time := now
    kernel_time := wadd64 st.kernel_time (wsub64 now st.last_kernel_time) }

/-- Rust `TimeStat::enter_kspace` at tick `now`: record `now` as the last
entry into kernel mode and charge `now - last_user_time` (a bare `u64`
subtraction in the source — no clamping) to the user counter. -/
def enter_kspace (now : Nat) (st : TimeStat) : TimeStat :=
  { st with
    last_kernel_time := now
    user_time := wadd64 st.user_time (wsub64 now st.last_user_time) }

/-- Rust `TimeStat::info`. -/
def info (st : TimeStat) : Nat × Nat := (st.user_time, st.kernel_time)

end TimeStat

/-! ## Trap Registry (`src/arceos/modules/axhal/src/trap.rs`)

The `handle_trap!` macro dispatches a trap to the first handler of the
registered (link-time collected) slice for that trap kind, warning when
the slice is empty (result `false`) or has more than one entry.  Logging
is modelled explicitly so that "emits a diagnostic" becomes provable.
`handle_syscall` is different: it indexes `SYSCALL[0]` directly, which
panics (modelled `none`) when no handler is registered, and never warns
about additional handlers. -/

/-- Outcome of one `handle_trap!` dispatch: the returned value and the
two `warn!` diagnostics the macro can emit. -/
structure TrapDispatch (α : Type) where
  result : α
  warnedNoHandler : Bool
  warnedMultiple : Bool
  deriving Repr, DecidableEq

/-- The `handle_trap!` macro body for one trap kind, specialised (as in
the source, where IRQ and page-fault handlers return `bool`) to handlers
returning `Bool`; an empty handler slice yields the literal `false`.
The pre/post hooks (`BEFORE_ALL_TRAPS`/`AFTER_ALL_TRAPS`) do not affect
the returned value and are omitted. -/
def handle_trap {α : Type} (handlers : List (α → Bool)) (arg : α) :
    TrapDispatch Bool :=
  match handlers with
  | [] => { result := false, warnedNoHandler := true, warnedMultiple := false }
  | f :: rest =>
      { result := f arg
        warnedNoHandler := false
        warnedMultiple := !rest.isEmpty }

/-- Rust `handle_syscall`: calls `SYSCALL[0]` — an out-of-bounds index (a
panic, modelled `none`) when the handler slice is empty; no diagnostic
is ever emitted here. -/
def handle_syscall {τ : Type} (handlers : List (τ → Nat → Int))
    (tf : τ) (syscall_num : Nat) : Option Int :=
  match handlers with
  | [] => none
  | f :: _ => some (f tf syscall_num)

/-! ## Process graph: `wait_pid` (`src/src/task.rs`)

A child task is abstracted to its process id and scheduler-visible
state (`Running`, or `Exited` with an `i32` exit code); both are owned
by the external `axtask` runtime. -/

inductive TaskState where
  | Running : TaskState
  | Exited (exit_code : Int) : TaskState
  deriving Repr, DecidableEq

structure Child where
  proc_id : Nat
  state : TaskState
  deriving Repr, DecidableEq

/-- Modelled from the spec: `axtask`'s `join` operation on a child task
is not under `src/`.  The spec's `wait` semantics — "If found but still
running, block by cooperative re-yield in a loop unless the non-blocking
flag is set, in which case return 0 immediately" (§4.6), together with
"`wait` ... implemented as an explicit yield-and-repoll loop rather than
a wakeup-queue" (§5) — require the join used inside the `wait_pid` scan
to observe a still-running child without blocking, so it is modelled as
returning the exit code of an already-exited child and `None` for a
running one (matching the source's `else { answer_status = Running }`
branch and its yield loop). -/
def Child.join (c : Child) : Option Int :=
  match c.state with
  | TaskState.Exited code => some code
  | TaskState.Running => none

/-- The `WaitStatus` states of `wait_pid`. -/
inductive WaitStatus where
  | Exited : WaitStatus
  | Running : WaitStatus
  | NotExist : WaitStatus
  deriving Repr, DecidableEq

/-- Result of one pass of `wait_pid`'s scan over the children list:
the final `answer_status`, `exit_task_id` (index), `answer_id`, and the
value written through `exit_code_ptr` during the scan (if any). -/
structure ScanResult where
  status : WaitStatus
  exit_task_id : Nat
  answer_id : Nat
  written : Option Int
  deriving Repr, DecidableEq

/-- One pass of the `for (index, child) in children.iter().enumerate()`
loop of `wait_pid`, starting at index `idx` with current status `st`.
`ptrNull` models `exit_code_ptr.is_null()`; a written exit code is
`exit_code << 8` on the `i32` stored through the pointer. -/
def waitScan (pid : Int) (ptrNull : Bool) (st : WaitStatus) (idx : Nat) :
    List Child → ScanResult
  | [] => { status := st, exit_task_id := 0, answer_id := 0, written := none }
  | child :: rest =>
      if pid ≤ 0 then
        match child.state with
        | TaskState.Exited code =>
            { status := WaitStatus.Exited
              exit_task_id := idx
              answer_id := child.proc_id
              written := if ptrNull then none else some (wrap32 (code * 256)) }
        | TaskState.Running =>
            waitScan pid ptrNull WaitStatus.Running (idx + 1) rest
      else if child.proc_id = pid.toNat then
        match child.join with
        | some code =>
            { status := WaitStatus.Exited
              exit_task_id := idx
              answer_id := child.proc_id
              written := if ptrNull then none else some (wrap32 (code * 256)) }
        | none =>
            { status := WaitStatus.Running, exit_task_id := 0, answer_id := 0
              written := none }
      else
        waitScan pid ptrNull st (idx + 1) rest

/-- Outcome of a `wait_pid` call under a fixed snapshot of the children
list: either the call blocks (the `yield_now` loop re-polls an unchanged
state forever), or it returns `ret` having written `written` through the
exit-code pointer and leaving `children` as the caller's new list. -/
inductive WaitOutcome where
  | blocks : WaitOutcome
  | ret (val : Int) (written : Option Int) (children : List Child) : WaitOutcome
  deriving Repr, DecidableEq

/-- Rust `wait_pid(pid, exit_code_ptr, option)` over a fixed children list.
`option` is the raw flags word; `WNOHANG` is bit 0.  Under a fixed
snapshot the outer `loop` either decides on its first pass or yields and
re-polls the identical state forever, which is modelled as `blocks`. -/
def wait_pid (children : List Child) (pid : Int) (ptrNull : Bool)
    (option : Nat) : WaitOutcome :=
  let wnohang := option % 2 = 1
  let s := waitScan pid ptrNull WaitStatus.NotExist 0 children
  if ¬wnohang ∧ s.status = WaitStatus.Running then
    WaitOutcome.blocks
  else if s.status = WaitStatus.Exited then
    WaitOutcome.ret (Int.ofNat s.answer_id) s.written
      (children.eraseIdx s.exit_task_id)
  else if wnohang then
    WaitOutcome.ret 0 s.written children
  else
    WaitOutcome.ret (-1) s.written children

/-! ## `exec` (`src/src/task.rs`)

`exec` replaces the current task's program.  The surrounding state is
abstracted to the fields `exec` touches: the strong reference count of
the `Arc` holding the address space, the address space itself (an opaque
list of mappings), the saved user context, and the task name.  The two
operations `exec` delegates to — `AddrSpace::unmap_user_areas` (the
external `axmm` address-space owner) and `crate::mm::map_elf_sections`
(the kernel's ELF mapping layer, not under `src/`) — are passed in as
parameters; both are only reached after the single-owner check. -/

/-- An address space, abstracted to its list of mappings
(start, length, flags word). -/
structure AddrSpace where
  mappings : List (Nat × Nat × Nat)
  deriving Repr, DecidableEq

/-- The `axerrno::AxError` values `exec` can produce or propagate. -/
inductive AxError where
  | Unsupported : AxError
  | NotFound : AxError
  | BadState : AxError
  | NoMemory : AxError
  | InvalidInput : AxError
  deriving Repr, DecidableEq

/-- Saved user-space context: entry point, stack pointer, argument. -/
structure UspaceContext where
  ip : Nat
  sp : Nat
  arg : Nat
  deriving Repr, DecidableEq

/-- The slice of task state `exec` reads and writes. -/
structure ExecTaskState where
  /-- The `Arc::strong_count` of the task's `aspace` handle. -/
  aspace_strong_count : Nat
  aspace : AddrSpace
  uctx : UspaceContext
  name : String
  deriving Repr, DecidableEq

/-- Rust `exec(program_name)`.  Returns `some err` paired with the resulting
task state on failure; `none` models the successful path, which enters
user mode and never returns to the caller.

* `unmapUserAreas` models `aspace.unmap_user_areas()` followed by the
  TLB flush: it returns the emptied address space, or an error together
  with the (possibly partially unmapped) address space.
* `mapElfSections` models `crate::mm::map_elf_sections(name, aspace)`:
  on success it yields the entry point, the user stack base and the
  populated address space; the caller maps any error to
  `AxError::NotFound`. -/
def exec
    (unmapUserAreas : AddrSpace → Option AxError × AddrSpace)
    (mapElfSections : String → AddrSpace → Option (Nat × Nat × AddrSpace))
    (st : ExecTaskState) (program_name : String) :
    Option AxError × ExecTaskState :=
  if st.aspace_strong_count ≠ 1 then
    (some AxError.Unsupported, st)
  else
    match unmapUserAreas st.aspace with
    | (some e, asp) => (some e, { st with aspace := asp })
    | (none, asp) =>
        match mapElfSections program_name asp with
        | none => (some AxError.NotFound, { st with aspace := asp })
        | some (entry_point, user_stack_base, asp) =>
            (none,
              { st with
                aspace := asp
                name := program_name
                uctx := { ip := entry_point, sp := user_stack_base, arg := 0 } })

/-! ## `sys_execve` (`src/src/syscall_imp/task/thread.rs`)

The path has already been converted from a C string
(`char_ptr_to_str`, external); the reads of `*argv`/`*envp` through the
raw user pointers are abstracted to the booleans they produce
(`argv_valid` / `envp_valid`); non-valid values are only logged.  The
`exec` call itself is passed in as `execFn` (its `Ok` arm is
`unreachable!` in the source because a successful `exec` enters user
mode). -/

/-- Rust `str::split('/')`: split a character list at every `'/'`,
keeping empty pieces (leading, trailing, and between consecutive
separators), exactly as the `std` iterator does. -/
def splitSlash : List Char → List (List Char)
  | [] => [[]]
  | c :: rest =>
      if c = '/' then [] :: splitSlash rest
      else
        match splitSlash rest with
        | p :: ps => (c :: p) :: ps
        | [] => [[c]]

/-- Observable outcome of `sys_execve`: `result = some v` is a normal
return with value `v`, `result = none` means the call never returned
(a successful `exec`); `execInvoked` records whether `crate::task::exec`
was called at all. -/
structure ExecveOutcome where
  result : Option Int
  execInvoked : Bool
  deriving Repr, DecidableEq

/-- Rust `sys_execve(path, argv, envp)`.  The path is the already-converted
string, as a character list; `argvValid`/`envpValid` model
`argv.is_null() || *argv == 0` and the same for `envp`; `execFn` models
`crate::task::exec(path_str)` (`none` = success, never returns). -/
def sys_execve (path_str : List Char) (_argvValid _envpValid : Bool)
    (execFn : List Char → Option AxError) : ExecveOutcome :=
  if ((splitSlash path_str).filter (fun s => ¬s.isEmpty)).length > 1 then
    { result := some (-1), execInvoked := false }
  else
    -- the `argv_valid` / `envp_valid` checks only log, they never reject
    match execFn path_str with
    | none => { result := none, execInvoked := true }
    | some _ => { result := some (-1), execInvoked := true }

/-! ## ELF Loader (`src/vendor/kernel-elf-parser/src/lib.rs`)

`get_elf_segments` is a pure transform from a parsed ELF file to the
list of loadable segments.  The `xmas_elf` view of the file is
abstracted to the fields the function reads: the magic bytes, the file
type, the program headers, and the raw input bytes.  Panics of the Rust
code (`assert_eq!` on the magic and on the virtual-address/offset
congruence, `.unwrap()` of the base-address resolution, out-of-range
slicing of `elf.input`) are modelled as `none`. -/

/-- Program-header read/write/execute flag bits. -/
structure PhFlags where
  r : Bool
  w : Bool
  x : Bool
  deriving Repr, DecidableEq

/-- The ELF object-file types distinguished by the parser. -/
inductive ElfType where
  | Executable : ElfType
  | SharedObject : ElfType
  deriving Repr, DecidableEq

/-- One program header, restricted to the fields `get_elf_segments`
reads.  `isLoad` is `ph.get_type() == Ok(Type::Load)`. -/
structure ProgramHeader where
  isLoad : Bool
  vaddr : Nat
  mem_size : Nat
  offset : Nat
  file_size : Nat
  flags : PhFlags
  deriving Repr, DecidableEq

/-- The slice of `xmas_elf::ElfFile` consumed by the segment loader. -/
structure ElfFile where
  magic : List Nat
  etype : ElfType
  phs : List ProgramHeader
  input : List Nat
  deriving Repr, DecidableEq

/-- Page-table mapping permission flags (`MappingFlags`). -/
structure MappingFlags where
  read : Bool
  write : Bool
  execute : Bool
  user : Bool
  deriving Repr, DecidableEq

/-- An `ELFSegment`: a loadable segment as produced by the parser. -/
structure ELFSegment where
  vaddr : Nat
  size : Nat
  flags : MappingFlags
  data : Option (List Nat)
  deriving Repr, DecidableEq

/-- Rust `get_elf_base_addr`: position-independent images use the caller's
hint; fixed-address executables use their own addresses (base 0) and
fail when the lowest `LOAD` segment sits at virtual address 0. -/
def get_elf_base_addr (elf : ElfFile) (given_base : Nat) :
    Except String Nat :=
  if elf.etype = ElfType.Executable then
    match elf.phs.find? (fun ph => ph.isLoad) with
    | some ph =>
        if ph.vaddr = 0 then
          Except.error "executable with a segment loaded to vaddr 0"
        else
          Except.ok 0
    | none => Except.error "executable with no LOAD segment"
  else
    Except.ok given_base

/-- The per-`LOAD`-program-header body of `get_elf_segments`'s
`for_each`: round the start down to the page boundary (pulling the
leading `front_pad` bytes of the file in as padding), derive the
permission flags from the header's r/w/x bits plus the fixed `USER`
bit, and slice the backing bytes out of the raw input. -/
def elfSegment (input : List Nat) (real_base_addr : Nat)
    (ph : ProgramHeader) : Option ELFSegment :=
  let start_va := ph.vaddr + real_base_addr
  let end_va := ph.vaddr + ph.mem_size + real_base_addr
  let start_offset := ph.offset
  let end_offset := ph.offset + ph.file_size
  -- assert_eq!(start_va % PAGE_SIZE_4K, start_offset % PAGE_SIZE_4K)
  if start_va % 4096 = start_offset % 4096 then
    let front_pad := start_va % 4096
    let start_va := start_va - front_pad
    let start_offset := start_offset - front_pad
    if end_offset ≤ input.length then
      some
        { vaddr := start_va
          size := end_va - start_va
          flags :=
            { read := ph.flags.r, write := ph.flags.w
              execute := ph.flags.x, user := true }
          data := some ((input.drop start_offset).take (end_offset - start_offset)) }
    else
      none
  else
    none

/-- Rust `get_elf_segments(elf, elf_base_addr)`. -/
def get_elf_segments (elf : ElfFile) (elf_base_addr : Nat) :
    Option (List ELFSegment) :=
  -- assert_eq!(magic, [0x7f, 0x45, 0x4c, 0x46])
  if elf.magic = [0x7f, 0x45, 0x4c, 0x46] then
    match get_elf_base_addr elf elf_base_addr with
    | Except.error _ => none
    | Except.ok real_base_addr =>
        (elf.phs.filter (fun ph => ph.isLoad)).mapM
          (elfSegment elf.input real_base_addr)
  else
    none

/-- Modelled from the spec: the kernel's ELF mapping layer
(`crate::mm::map_elf_sections` in `src/mm.rs` and the `axmm`
address-space owner behind it) is not present under `src/`.  Per the
spec, `exec` "for each returned segment, eagerly maps and writes it into
the now-empty address space" (§4.6) at the segment's page-aligned start,
and mapping is page-granular, so the mapped length of a loader segment
is its length rounded up to the next 4K boundary ("mapped length is
`align_up_4k(n + front_pad)`", §8). -/
def mappedLen (seg : ELFSegment) : Nat := align_up_4k seg.size

/-! ## Directory-entry serialization (`src/src/syscall_imp/fs/ctl.rs`)

`sys_getdents64` serializes a directory listing into a caller-supplied
byte buffer using the fixed 19-byte-header `DirEnt` record layout.  The
user buffer is modelled as a total byte function `Nat → Nat` (index to
byte value); only indices below the buffer length are ever read or
written by the embedded code.

One memory-layout remark: the Rust `entry_ptr.write(dirent)` stores the
whole `repr(C)` struct, i.e. the 19 header bytes followed by 5 tail
padding bytes of unspecified value.  Every record written afterwards
starts at the previous record's 19-plus-name-length boundary and
overwrites that padding, so after the final (terminal) record only the
5 bytes directly after the terminal header are unspecified — bytes that
no decoder of the record chain reads.  The embedding therefore writes
exactly the 19 header bytes plus the name for each record. -/

/-- A user buffer: byte value at each index. -/
def ByteBuf : Type := Nat → Nat

/-- Store `data` at offsets `[off, off + data.length)`. -/
def writeBytes (f : ByteBuf) (off : Nat) (data : List Nat) : ByteBuf :=
  fun i => if off ≤ i ∧ i < off + data.length then data.getD (i - off) 0 else f i

/-- Little-endian encoding of `v` on `width` bytes. -/
def leBytes (width v : Nat) : List Nat :=
  (List.range width).map (fun i => v / 256 ^ i % 256)

/-- Read a little-endian `u16` at `off`. -/
def readU16 (f : ByteBuf) (off : Nat) : Nat := f off + 256 * f (off + 1)

/-- Read a little-endian `u64` at `off`. -/
def readU64 (f : ByteBuf) (off : Nat) : Nat :=
  (List.range 8).foldr (fun i acc => f (off + i) + 256 * acc) 0

/-- Read a little-endian `i64` (two's complement) at `off`. -/
def readI64 (f : ByteBuf) (off : Nat) : Int :=
  let v := readU64 f off
  if v < 9223372036854775808 then (v : Int) else (v : Int) - 18446744073709551616

/-- The `DirEnt` header fields (`d_name` is written separately). -/
structure DirEnt where
  d_ino : Nat
  d_off : Int
  d_reclen : Nat
  d_type : Nat
  deriving Repr, DecidableEq

namespace DirEnt

/-- Constant `DirEnt::FIXED_SIZE` = 8 + 8 + 2 + 1. -/
def FIXED_SIZE : Nat := 19

/-- The 19 header bytes: 8-byte inode, 8-byte signed next-entry offset,
2-byte record length, 1-byte file-type tag, all little-endian. -/
def headerBytes (e : DirEnt) : List Nat :=
  leBytes 8 e.d_ino ++ leBytes 8 (e.d_off % 18446744073709551616).toNat ++
    leBytes 2 e.d_reclen ++ [e.d_type % 256]

end DirEnt

/-- A `DirBuffer`: a bounds-checked cursor over the user buffer. -/
structure DirBuffer where
  buf : ByteBuf
  len : Nat
  offset : Nat

namespace DirBuffer

/-- Rust `DirBuffer::remaining_space` (`saturating_sub` is `Nat` subtraction). -/
def remaining_space (b : DirBuffer) : Nat := b.len - b.offset

/-- Rust `DirBuffer::can_fit_entry`. -/
def can_fit_entry (b : DirBuffer) (entry_size : Nat) : Prop :=
  entry_size ≤ b.remaining_space

instance (b : DirBuffer) (n : Nat) : Decidable (b.can_fit_entry n) := by
  unfold can_fit_entry; infer_instance

/-- Rust `DirBuffer::write_entry`: capacity-check against the declared
`d_reclen`, store the header and the name, advance by `d_reclen`.
`none` models `Err(())`. -/
def write_entry (b : DirBuffer) (dirent : DirEnt) (name : List Nat) :
    Option DirBuffer :=
  if b.can_fit_entry dirent.d_reclen then
    some
      { b with
        buf := writeBytes b.buf b.offset (dirent.headerBytes ++ name)
        offset := b.offset + dirent.d_reclen }
  else
    none

end DirBuffer

/-- The initial-offset/count scan of `sys_getdents64` over the bytes the
caller's buffer already holds: walk records until a zero `d_reclen` or
the end of the buffer, checking `assert_eq!(d_off, next offset)` (a
failed assert — or a non-terminating walk, impossible for the inputs
considered here — is `none`).  `fuel` bounds the recursion. -/
def scanExisting (f : ByteBuf) (len : Nat) :
    Nat → Nat → Nat → Option (Nat × Nat)
  | 0, _, _ => none
  | fuel + 1, buf_offset, count =>
      if buf_offset + DirEnt.FIXED_SIZE ≤ len then
        let reclen := readU16 f (buf_offset + 16)
        if reclen = 0 then
          some (buf_offset, count)
        else
          let buf_offset' := buf_offset + reclen
          if readI64 f (buf_offset + 8) = (buf_offset' : Int) then
            scanExisting f len fuel buf_offset' (count + 1)
          else
            none
      else
        some (buf_offset, count)

/-- Running state of the entry-writing loop of `sys_getdents64`. -/
structure GdState where
  buffer : DirBuffer
  total_size : Nat
  current_offset : Int

/-- The `for entry in entries.flatten().skip(count)` loop: append the
NUL terminator to the name, build the `DirEnt` (inode constantly 1,
`d_off` = running offset after this record, `d_reclen` = 19 + name
bytes), write it, and stop at the first write failure.  A directory
entry is a pair (name bytes without NUL, file-type tag). -/
def writeEntries (s : GdState) : List (List Nat × Nat) → GdState
  | [] => s
  | (nameRaw, ftype) :: rest =>
      let name_bytes := nameRaw ++ [0]
      let entry_size := DirEnt.FIXED_SIZE + name_bytes.length
      let current_offset := s.current_offset + (entry_size : Int)
      let dirent : DirEnt :=
        { d_ino := 1, d_off := current_offset, d_reclen := entry_size
          d_type := ftype }
      match s.buffer.write_entry dirent name_bytes with
      | none => { s with current_offset := current_offset }
      | some b =>
          writeEntries
            { buffer := b, total_size := s.total_size + entry_size
              current_offset := current_offset } rest

/-- The serialization phase of `sys_getdents64` after the initial scan
found resume point `initial_offset` and `count` already-present
records: write the remaining directory entries, append the zero-length
terminal record when anything was produced and 19 bytes still fit, and
return the buffer with the accumulated total size. -/
def gdSerialize (entries : List (List Nat × Nat)) (initBuf : ByteBuf)
    (len initial_offset count : Nat) : ByteBuf × Int :=
  let s0 : GdState :=
    { buffer := { buf := initBuf, len := len, offset := 0 }
      total_size := initial_offset
      current_offset := (initial_offset : Int) }
  let s := writeEntries s0 (entries.drop count)
  let s :=
    if s.total_size > 0 ∧ s.buffer.can_fit_entry DirEnt.FIXED_SIZE then
      match s.buffer.write_entry
          { d_ino := 1, d_off := s.current_offset, d_reclen := 0
            d_type := 8 } [] with
      | some b => { s with buffer := b }
      | none => s
    else
      s
  (s.buffer.buf, (s.total_size : Int))

/-- Rust `sys_getdents64(fd, buf, len)`, given the directory entries the
external `axfs::api::read_dir` yields for the descriptor's path and the
caller buffer's initial contents.  The `alloc_for_lazy` call into the
external address-space owner and the path lookup are assumed to succeed
(they precede all serialization).  `none` models a `-1` return or a
panicking scan; otherwise the final buffer contents and the returned
total byte count are produced. -/
def sys_getdents64 (entries : List (List Nat × Nat)) (initBuf : ByteBuf)
    (len : Nat) : Option (ByteBuf × Int) :=
  if len < DirEnt.FIXED_SIZE then
    none
  else
    match scanExisting initBuf len len 0 0 with
    | none => none
    | some (initial_offset, count) =>
        some (gdSerialize entries initBuf len initial_offset count)

/-- A decoded directory record: the four header fields plus the
`d_reclen - 19` name bytes that follow the header. -/
structure DecRecord where
  d_ino : Nat
  d_off : Int
  d_reclen : Nat
  d_type : Nat
  name : List Nat
  deriving Repr, DecidableEq

/-- Decode the single record whose header starts at `off`: the four
header fields plus the `d_reclen - 19` name bytes after the header. -/
def decodeOne (f : ByteBuf) (off : Nat) : DecRecord :=
  { d_ino := readU64 f off
    d_off := readI64 f (off + 8)
    d_reclen := readU16 f (off + 16)
    d_type := f (off + 18)
    name := (List.range (readU16 f (off + 16) - DirEnt.FIXED_SIZE)).map
      (fun j => f (off + DirEnt.FIXED_SIZE + j)) }

/-- Decode the record chain starting at `off`: collect records until one
with `d_reclen = 0` (the terminal record, returned separately);
`none` if the chain does not terminate within `fuel` records. -/
def decodeRecords (f : ByteBuf) : Nat → Nat → Option (List DecRecord × DecRecord)
  | 0, _ => none
  | fuel + 1, off =>
      if readU16 f (off + 16) = 0 then
        some ([], decodeOne f off)
      else
        match decodeRecords f fuel (off + readU16 f (off + 16)) with
        | some (recs, term) => some (decodeOne f off :: recs, term)
        | none => none

/-! ## Claims -/

/-- C1: `exec` requires the caller's address space to have exactly one
owner: whenever the strong reference count of the task's address-space
handle is greater than 1, the call returns an error (`Unsupported`)
before any destructive step — for every possible behaviour of the
unmapping and ELF-loading collaborators — and the task state, in
particular every existing mapping of the address space, is left
unchanged. -/
theorem C1_exec_requires_sole_owner
    (unmapUserAreas : AddrSpace → Option AxError × AddrSpace)
    (mapElfSections : String → AddrSpace → Option (Nat × Nat × AddrSpace))
    (st : ExecTaskState) (program_name : String)
    (h : 1 < st.aspace_strong_count) :
    exec unmapUserAreas mapElfSections st program_name
      = (some AxError.Unsupported, st) := by
  unfold exec
  rw [if_pos (by omega)]

/-- Witness for `C1_exec_requires_sole_owner` at a concrete state whose
address-space handle has strong count 2. -/
theorem C1_exec_requires_sole_owner_witness :
    exec (fun a => (none, a)) (fun _ a => some (0, 0, a))
        ⟨2, ⟨[(0, 4096, 7)]⟩, ⟨0, 0, 0⟩, "init"⟩ "hello"
      = (some AxError.Unsupported, ⟨2, ⟨[(0, 4096, 7)]⟩, ⟨0, 0, 0⟩, "init"⟩) :=
  C1_exec_requires_sole_owner _ _ _ _ (by decide)

/-- C5 counterexample: the claim says a backwards tick source has its
delta clamped to zero.  In the source both `enter_uspace` and
`enter_kspace` perform a bare `u64` subtraction: starting from
`TimeStat { user_time: 0, kernel_time: 0, last_user_time: 0,
last_kernel_time: 5 }`, `enter_uspace` at tick 3 adds the wrapped delta
`2^64 - 2` to the kernel counter instead of 0 (and a debug build would
panic on the underflow). -/
theorem C5_counterexample_no_clamp :
    (TimeStat.enter_uspace 3 ⟨0, 0, 0, 5⟩).kernel_time = 18446744073709551614
      ∧ (TimeStat.enter_uspace 3 ⟨0, 0, 0, 5⟩).kernel_time ≠ 0 := by
  constructor
  · rfl
  · decide

/-- C5 amended: for a non-monotonic tick source (`now` below the stored
last-crossing timestamp), `enter_uspace`/`enter_kspace` do **not** clamp
the delta to zero; the cumulative counter receives the wrapping `u64`
difference `2^64 - (last - now)` (modulo `2^64`; a debug build would
panic instead). -/
theorem C5_amended_delta_wraps (st : TimeStat) (now : Nat)
    (hk : now < st.last_kernel_time) (hkb : st.last_kernel_time < U64MOD)
    (hu : now < st.last_user_time) (hub : st.last_user_time < U64MOD) :
    (TimeStat.enter_uspace now st).kernel_time
        = (st.kernel_time + (U64MOD - (st.last_kernel_time - now))) % U64MOD
      ∧ (TimeStat.enter_kspace now st).user_time
        = (st.user_time + (U64MOD - (st.last_user_time - now))) % U64MOD := by
  have hM : U64MOD = 18446744073709551616 := rfl
  constructor
  · show wadd64 st.kernel_time (wsub64 now st.last_kernel_time) = _
    unfold wadd64 wsub64
    rw [Nat.mod_eq_of_lt hkb,
      Nat.mod_eq_of_lt (a := now + (U64MOD - st.last_kernel_time)) (by omega)]
    congr 1
    omega
  · show wadd64 st.user_time (wsub64 now st.last_user_time) = _
    unfold wadd64 wsub64
    rw [Nat.mod_eq_of_lt hub,
      Nat.mod_eq_of_lt (a := now + (U64MOD - st.last_user_time)) (by omega)]
    congr 1
    omega

/-- Witness for `C5_amended_delta_wraps` at the stat
`⟨0, 0, 5, 5⟩` and tick 3. -/
theorem C5_amended_delta_wraps_witness :
    (TimeStat.enter_uspace 3 ⟨0, 0, 5, 5⟩).kernel_time
        = (0 + (U64MOD - (5 - 3))) % U64MOD
      ∧ (TimeStat.enter_kspace 3 ⟨0, 0, 5, 5⟩).user_time
        = (0 + (U64MOD - (5 - 3))) % U64MOD :=
  C5_amended_delta_wraps ⟨0, 0, 5, 5⟩ 3 (by decide) (by decide) (by decide)
    (by decide)

/-- C6 counterexample: the claim covers "every trap kind (IRQ, page
fault, syscall)", but syscall dispatch (`handle_syscall`) indexes
`SYSCALL[0]` directly: with zero registered handlers it panics (an
out-of-bounds index, modelled `none`) instead of logging and returning
an unhandled result, and with two registered handlers it invokes the
first without emitting any diagnostic (there is no multiple-handler
check on the syscall path). -/
theorem C6_counterexample_syscall_dispatch :
    handle_syscall ([] : List (Unit → Nat → Int)) () 0 = none
      ∧ handle_syscall [fun _ _ => 7, fun _ _ => 8] () 0 = some 7 := by
  constructor <;> rfl

/-- C6 amended: for the trap kinds dispatched through the `handle_trap!`
macro (IRQ and page fault), dispatch with zero registered handlers logs
and returns the unhandled result `false`; with exactly one handler it
returns that handler's result without diagnostics; with two or more
handlers it invokes only the first (the result is independent of the
remaining handlers) and emits the multiple-handlers diagnostic.
Syscall dispatch instead indexes the first registered handler directly:
with zero handlers it panics (`none`) rather than returning an unhandled
result, and with several handlers it invokes only the first (again
independently of the others) with no diagnostic. -/
theorem C6_amended_dispatch (α τ : Type) :
    (∀ arg : α, handle_trap [] arg = ⟨false, true, false⟩)
      ∧ (∀ (f : α → Bool) (arg : α), handle_trap [f] arg = ⟨f arg, false, false⟩)
      ∧ (∀ (f g : α → Bool) (rest : List (α → Bool)) (arg : α),
          handle_trap (f :: g :: rest) arg = ⟨f arg, false, true⟩)
      ∧ (∀ (f g g' : α → Bool) (rest : List (α → Bool)) (arg : α),
          handle_trap (f :: g :: rest) arg = handle_trap (f :: g' :: rest) arg)
      ∧ (∀ (tf : τ) (n : Nat), handle_syscall [] tf n = none)
      ∧ (∀ (f : τ → Nat → Int) (rest : List (τ → Nat → Int)) (tf : τ) (n : Nat),
          handle_syscall (f :: rest) tf n = some (f tf n)) := by
  refine ⟨fun _ => rfl, fun _ _ => rfl, fun _ _ _ _ => ?_, fun _ _ _ _ _ => ?_,
    fun _ _ => rfl, fun _ _ _ _ => rfl⟩
  · simp [handle_trap]
  · simp [handle_trap]

/-- C10: `sys_execve` rejects any path string with more than one
non-empty `/`-separated component, returning −1 without ever invoking
`exec` (so no user region is unmapped and no program is loaded),
regardless of what `exec` would do; and the `argv`/`envp` validity
checks never affect the outcome — they are only logged. -/
theorem C10_execve_multilevel_path (path : List Char) (a e : Bool)
    (execFn : List Char → Option AxError)
    (h : 1 < ((splitSlash path).filter (fun s => ¬s.isEmpty)).length) :
    sys_execve path a e execFn = ⟨some (-1), false⟩
      ∧ ∀ (p : List Char) (a₁ e₁ a₂ e₂ : Bool)
          (g : List Char → Option AxError),
          sys_execve p a₁ e₁ g = sys_execve p a₂ e₂ g := by
  constructor
  · unfold sys_execve
    rw [if_pos h]
  · intro p a₁ e₁ a₂ e₂ g
    unfold sys_execve
    rfl

/-- Witness for `C10_execve_multilevel_path` at the path `"a/b"`. -/
theorem C10_execve_multilevel_path_witness :
    sys_execve ['a', '/', 'b'] true true (fun _ => some AxError.NotFound)
      = ⟨some (-1), false⟩ :=
  (C10_execve_multilevel_path ['a', '/', 'b'] true true _ (by decide)).1

/-- C4 counterexample: the claim says every failing `set_heap_top`
leaves both tops unchanged.  But `dealloc` lowers the logical top
*before* attempting the unmap: with bottom `0x4000`, max size `0x10000`,
state `{ heap_top = 0x6000, actual_heap_top = 0x6000 }` and a shrink
request to `0x4100` whose unmap fails, the call fails (`none`) yet the
logical top has moved from `0x6000` to `0x4100`. -/
theorem C4_counterexample_shrink_unmap_failure :
    HeapManager.set_heap_top 0x4000 0x10000 (fun _ _ => true)
        (fun _ _ => false) ⟨0x6000, 0x6000⟩ 0x4100
      = (none, ⟨0x4100, 0x6000⟩)
      ∧ (0x4100 : Nat) ≠ 0x6000 := by
  constructor
  · rfl
  · decide

/-- C4 amended: whenever `set_heap_top` fails (`none`) — a grow rejected
for exceeding the configured bound, a grow whose allocating map fails, a
shrink rejected for going below the configured bottom, or a shrink whose
unmap fails — the mapped (actual) top is unchanged, and the logical top
is unchanged **except** in the failing-unmap shrink case, where it has
already been lowered, unconditionally, to the requested value. -/
theorem C4_amended_failure_state (bottom size : Nat)
    (mapAlloc unmap : Nat → Nat → Bool) (st : HeapManager) (top : Nat)
    (h : (HeapManager.set_heap_top bottom size mapAlloc unmap st top).1 = none) :
    (HeapManager.set_heap_top bottom size mapAlloc unmap st top).2.actual_heap_top
        = st.actual_heap_top
      ∧ ((HeapManager.set_heap_top bottom size mapAlloc unmap st top).2 = st
        ∨ ((HeapManager.set_heap_top bottom size mapAlloc unmap st top).2.heap_top
              = top
            ∧ top ≤ st.heap_top ∧ bottom ≤ top
            ∧ ¬unmap (align_up_4k top) (st.actual_heap_top - align_up_4k top))) := by
  simp only [HeapManager.set_heap_top, HeapManager.alloc, HeapManager.dealloc]
    at h ⊢
  split_ifs at h ⊢ <;> simp_all

/-- Witness for `C4_amended_failure_state` at the failing-unmap shrink
of the counterexample. -/
theorem C4_amended_failure_state_witness :
    (HeapManager.set_heap_top 0x4000 0x10000 (fun _ _ => true)
          (fun _ _ => false) ⟨0x6000, 0x6000⟩ 0x4100).2.actual_heap_top
        = (0x6000 : Nat)
      ∧ ((HeapManager.set_heap_top 0x4000 0x10000 (fun _ _ => true)
            (fun _ _ => false) ⟨0x6000, 0x6000⟩ 0x4100).2
            = (⟨0x6000, 0x6000⟩ : HeapManager)
        ∨ ((HeapManager.set_heap_top 0x4000 0x10000 (fun _ _ => true)
              (fun _ _ => false) ⟨0x6000, 0x6000⟩ 0x4100).2.heap_top
              = (0x4100 : Nat)
            ∧ (0x4100 : Nat) ≤ 0x6000 ∧ (0x4000 : Nat) ≤ 0x4100
            ∧ ¬(fun _ _ => false) (align_up_4k 0x4100)
                ((0x6000 : Nat) - align_up_4k 0x4100))) :=
  C4_amended_failure_state 0x4000 0x10000 (fun _ _ => true) (fun _ _ => false)
    ⟨0x6000, 0x6000⟩ 0x4100 (by decide)

/-- The value of `align_up_4k` is a multiple of 4096. -/
theorem align_up_4k_mod (x : Nat) : align_up_4k x % 4096 = 0 := by
  unfold align_up_4k
  omega

/-- The function `align_up_4k` does not decrease its argument. -/
theorem le_align_up_4k (x : Nat) : x ≤ align_up_4k x := by
  unfold align_up_4k
  omega

/-- One `set_heap_top` call preserves the heap invariant, whatever the
requested top and whatever the address-space owner answers. -/
theorem set_heap_top_preserves_inv (bottom size : Nat)
    (mapAlloc unmap : Nat → Nat → Bool) (st : HeapManager) (top : Nat)
    (hinv : HeapManager.Inv bottom size st) :
    HeapManager.Inv bottom size
      (HeapManager.set_heap_top bottom size mapAlloc unmap st top).2 := by
  obtain ⟨h1, h2, h3, h4⟩ := hinv
  simp only [HeapManager.set_heap_top, HeapManager.alloc, HeapManager.dealloc]
  have ha := align_up_4k_mod top
  have hb := le_align_up_4k top
  split_ifs <;>
    simp_all [HeapManager.Inv] <;>
    omega

/-- C9: starting from the freshly created heap manager (both tops at the
configured, page-aligned, bottom), after every sequence of
`set_heap_top` calls — succeeding or failing, with arbitrary
address-space-owner behaviour on each call — the heap invariant holds:
configured bottom ≤ logical top ≤ configured bottom + configured max
size, the mapped (actual) top is 4K-page-aligned, and the logical top
never exceeds the mapped top.  (Since every prefix of a call sequence is
itself a call sequence, this gives the invariant after every call.) -/
theorem C9_heap_invariant (bottom size : Nat) (hb : bottom % 4096 = 0)
    (ops : List HeapManager.HeapCall) :
    HeapManager.Inv bottom size
      (HeapManager.runCalls bottom size (HeapManager.empty bottom) ops) := by
  have hstep : ∀ (ops : List HeapManager.HeapCall) (st : HeapManager),
      HeapManager.Inv bottom size st →
        HeapManager.Inv bottom size (HeapManager.runCalls bottom size st ops) := by
    intro ops
    induction ops with
    | nil => intro st h; exact h
    | cons c cs ih =>
        intro st h
        exact ih _ (set_heap_top_preserves_inv bottom size c.mapAlloc c.unmap st
          c.top h)
  exact hstep ops (HeapManager.empty bottom) ⟨Nat.le_refl _, Nat.le_add_right _ _,
    hb, Nat.le_refl _⟩

/-- Witness for `C9_heap_invariant`: a concrete three-call sequence
(grow to `0x5800` with a succeeding map, shrink to `0x4080` with a
failing unmap, query) from bottom `0x4000`, size `0x10000`. -/
theorem C9_heap_invariant_witness :
    HeapManager.Inv 0x4000 0x10000
      (HeapManager.runCalls 0x4000 0x10000 (HeapManager.empty 0x4000)
        [⟨0x5800, fun _ _ => true, fun _ _ => true⟩,
          ⟨0x4080, fun _ _ => true, fun _ _ => false⟩,
          ⟨0, fun _ _ => true, fun _ _ => true⟩]) :=
  C9_heap_invariant 0x4000 0x10000 (by decide) _

/-- A `wait_pid` scan with a positive pid that matches no child leaves
the status it started with and writes nothing. -/
theorem waitScan_no_match (pid : Int) (ptrNull : Bool) (hpid : 0 < pid) :
    ∀ (children : List Child) (st : WaitStatus) (idx : Nat),
      (∀ c ∈ children, c.proc_id ≠ pid.toNat) →
        waitScan pid ptrNull st idx children
          = ⟨st, 0, 0, none⟩ := by
  intro children
  induction children with
  | nil => intro st idx _; rfl
  | cons d rest ih =>
      intro st idx h
      have hd : d.proc_id ≠ pid.toNat := h d (List.mem_cons_self d rest)
      have hrest : ∀ c ∈ rest, c.proc_id ≠ pid.toNat :=
        fun c hc => h c (List.mem_cons_of_mem d hc)
      simp only [waitScan, if_neg (by omega : ¬pid ≤ 0), if_neg hd]
      exact ih st (idx + 1) hrest

/-- A `wait_pid` scan with a positive pid whose first matching child
sits at list index `i` ends on that child: if it has exited the scan
reports `Exited` with the child's index and id and performs the
shifted exit-code write; if it is still running the scan reports
`Running`. -/
theorem waitScan_first_match (pid : Int) (ptrNull : Bool) (hpid : 0 < pid) :
    ∀ (children : List Child) (i : Nat) (c : Child) (st : WaitStatus) (idx : Nat),
      children[i]? = some c → c.proc_id = pid.toNat →
      (∀ j, j < i → ∀ cj, children[j]? = some cj → cj.proc_id ≠ pid.toNat) →
        waitScan pid ptrNull st idx children
          = match c.state with
            | TaskState.Exited code =>
                ⟨WaitStatus.Exited, idx + i, c.proc_id,
                  if ptrNull then none else some (wrap32 (code * 256))⟩
            | TaskState.Running => ⟨WaitStatus.Running, 0, 0, none⟩ := by
  intro children
  induction children with
  | nil => intro i c st idx hget; simp at hget
  | cons d rest ih =>
      intro i c st idx hget hcid hfirst
      match i with
      | 0 =>
          rw [List.getElem?_cons_zero] at hget
          injection hget with hdc
          subst hdc
          simp only [waitScan, if_neg (by omega : ¬pid ≤ 0), if_pos hcid,
            Child.join]
          cases hs : d.state with
          | Exited code => simp
          | Running => simp
      | j + 1 =>
          rw [List.getElem?_cons_succ] at hget
          have hd : d.proc_id ≠ pid.toNat := by
            have := hfirst 0 (Nat.succ_pos j) d
            simp at this
            exact this
          simp only [waitScan, if_neg (by omega : ¬pid ≤ 0), if_neg hd]
          have := ih j c st (idx + 1) hget hcid
            (fun k hk ck hck => by
              have := hfirst (k + 1) (Nat.succ_lt_succ hk) ck
              rw [List.getElem?_cons_succ] at this
              exact this hck)
          rw [this]
          cases c.state with
          | Exited code => simp; omega
          | Running => rfl

/-- C2: for a wait call with `pid > 0` whose first matching child (by
process id) sits at index `i` of the caller's children list:
(a) if that child has already exited with code `code`, `wait_pid`
removes it from the children list, writes `code << 8` through the
output pointer when that pointer is non-null, and returns the child's
id; (b) if that child is still running and the `WNOHANG` flag (bit 0 of
the options word) is set, `wait_pid` returns 0 immediately — it does
not block — leaving the children list unchanged and writing nothing. -/
theorem C2_wait_pid_targeted (children : List Child) (pid : Int)
    (ptrNull : Bool) (opt : Nat) (i : Nat) (c : Child)
    (hpid : 0 < pid) (hget : children[i]? = some c)
    (hcid : c.proc_id = pid.toNat)
    (hfirst : ∀ j, j < i → ∀ cj, children[j]? = some cj →
      cj.proc_id ≠ pid.toNat) :
    (∀ code, c.state = TaskState.Exited code →
        wait_pid children pid ptrNull opt
          = WaitOutcome.ret (Int.ofNat c.proc_id)
              (if ptrNull then none else some (wrap32 (code * 256)))
              (children.eraseIdx i))
      ∧ (c.state = TaskState.Running → opt % 2 = 1 →
          wait_pid children pid ptrNull opt
            = WaitOutcome.ret 0 none children) := by
  have hscan := waitScan_first_match pid ptrNull hpid children i c
    WaitStatus.NotExist 0 hget hcid hfirst
  constructor
  · intro code hc
    rw [hc] at hscan
    unfold wait_pid
    rw [hscan]
    simp
  · intro hc hopen_
    rw [hc] at hscan
    unfold wait_pid
    rw [hscan]
    simp [hopen_]

/-- Witness for `C2_wait_pid_targeted`: a single exited child with id 7
and exit code 4 is reaped with written status `4 << 8 = 1024`, and a
single running child with id 7 under `WNOHANG` yields 0 at once. -/
theorem C2_wait_pid_targeted_witness :
    wait_pid [⟨7, TaskState.Exited 4⟩] 7 false 0
        = WaitOutcome.ret 7 (some 1024) []
      ∧ wait_pid [⟨7, TaskState.Running⟩] 7 true 1
        = WaitOutcome.ret 0 none [⟨7, TaskState.Running⟩] := by
  constructor
  · have h := (C2_wait_pid_targeted [⟨7, TaskState.Exited 4⟩] 7 false 0 0
      ⟨7, TaskState.Exited 4⟩ (by decide) rfl (by decide)
      (fun j hj => by omega)).1 4 rfl
    simpa [wrap32] using h
  · exact (C2_wait_pid_targeted [⟨7, TaskState.Running⟩] 7 true 1 0
      ⟨7, TaskState.Running⟩ (by decide) rfl (by decide)
      (fun j hj => by omega)).2 rfl (by decide)

/-- C3 counterexample: with an empty children list (so no child matches
pid 5) and `WNOHANG` set, `wait_pid` returns 0, not the −1 the claim
requires: the final branch of the source checks
`options.contains(WNOHANG)` before falling through to −1, so the
no-matching-child case also yields 0 whenever `WNOHANG` is set. -/
theorem C3_counterexample_wnohang_no_child :
    wait_pid [] 5 true 1 = WaitOutcome.ret 0 none []
      ∧ wait_pid [] 5 true 1 ≠ WaitOutcome.ret (-1) none [] := by
  constructor
  · rfl
  · decide

/-- C3 amended: when the caller's children list contains no child
matching the positive pid argument, `wait_pid` returns −1 only when the
`WNOHANG` flag is clear; with `WNOHANG` set it returns 0.  (0 is thus
returned whenever `WNOHANG` is set and no matching exited child was
found — whether the match is still running or there is no match at
all.) -/
theorem C3_amended_no_match_result (children : List Child) (pid : Int)
    (ptrNull : Bool) (opt : Nat) (hpid : 0 < pid)
    (h : ∀ c ∈ children, c.proc_id ≠ pid.toNat) :
    wait_pid children pid ptrNull opt
      = WaitOutcome.ret (if opt % 2 = 1 then 0 else -1) none children := by
  unfold wait_pid
  rw [waitScan_no_match pid ptrNull hpid children WaitStatus.NotExist 0 h]
  by_cases hw : opt % 2 = 1 <;> simp [hw]

/-- Witness for `C3_amended_no_match_result`: one running child with a
different id, `WNOHANG` clear, yields −1. -/
theorem C3_amended_no_match_result_witness :
    wait_pid [⟨9, TaskState.Running⟩] 5 true 0
      = WaitOutcome.ret (if 0 % 2 = 1 then 0 else -1) none
          [⟨9, TaskState.Running⟩] :=
  C3_amended_no_match_result [⟨9, TaskState.Running⟩] 5 true 0 (by decide)
    (by decide)

/-- C7: for a minimal valid ELF image — correct magic, a fixed-address
executable (so the resolved base is 0 and its own addresses are used)
with exactly one `PT_LOAD` program header whose declared start is
nonzero, lies `front_pad = vaddr % 4096` bytes above a page boundary,
is congruent to its file offset modulo the page size, and whose file
range lies inside the image — the loader produces exactly one segment:
its start virtual address is the declared start rounded down to the
page boundary, its mapped length is `align_up_4k(mem_size + front_pad)`,
and its flags are exactly the program header's read/write/execute bits
plus the fixed user-accessible bit. -/
theorem C7_elf_single_load_segment (elf : ElfFile) (ph : ProgramHeader)
    (b : Nat)
    (hmagic : elf.magic = [0x7f, 0x45, 0x4c, 0x46])
    (htype : elf.etype = ElfType.Executable)
    (hphs : elf.phs = [ph])
    (hload : ph.isLoad = true)
    (hv : ph.vaddr ≠ 0)
    (hcong : ph.vaddr % 4096 = ph.offset % 4096)
    (hlen : ph.offset + ph.file_size ≤ elf.input.length) :
    ∃ seg : ELFSegment,
      get_elf_segments elf b = some [seg]
        ∧ seg.vaddr = ph.vaddr - ph.vaddr % 4096
        ∧ mappedLen seg = align_up_4k (ph.mem_size + ph.vaddr % 4096)
        ∧ seg.flags
            = ⟨ph.flags.r, ph.flags.w, ph.flags.x, true⟩ := by
  have hfp : ph.vaddr % 4096 ≤ ph.vaddr := Nat.mod_le _ _
  unfold get_elf_segments get_elf_base_addr
  rw [hmagic, if_pos rfl, htype, if_pos rfl, hphs]
  simp only [List.find?, hload, if_neg hv, List.filter, List.mapM_cons,
    List.mapM_nil]
  unfold elfSegment
  rw [if_pos (by omega : (ph.vaddr + 0) % 4096 = ph.offset % 4096),
    if_pos hlen]
  refine ⟨⟨ph.vaddr - ph.vaddr % 4096,
      ph.vaddr + ph.mem_size - (ph.vaddr - ph.vaddr % 4096),
      ⟨ph.flags.r, ph.flags.w, ph.flags.x, true⟩,
      some (List.take (ph.offset + ph.file_size - (ph.offset - ph.vaddr % 4096))
        (List.drop (ph.offset - ph.vaddr % 4096) elf.input))⟩,
    ?_, rfl, ?_, rfl⟩
  · simp
  · unfold mappedLen
    show align_up_4k (ph.vaddr + ph.mem_size - (ph.vaddr - ph.vaddr % 4096)) = _
    congr 1
    omega

/-- Witness for `C7_elf_single_load_segment`: a one-`LOAD` executable
with declared start `4100` (`front_pad = 4`), in-memory size 10, file
offset 4, empty file content, and r-x permission bits. -/
theorem C7_elf_single_load_segment_witness :
    ∃ seg : ELFSegment,
      get_elf_segments
          ⟨[0x7f, 0x45, 0x4c, 0x46], ElfType.Executable,
            [⟨true, 4100, 10, 4, 0, ⟨true, false, true⟩⟩], [0, 0, 0, 0]⟩ 0
        = some [seg]
        ∧ seg.vaddr = 4100 - 4100 % 4096
        ∧ mappedLen seg = align_up_4k (10 + 4100 % 4096)
        ∧ seg.flags = ⟨true, false, true, true⟩ :=
  C7_elf_single_load_segment
    ⟨[0x7f, 0x45, 0x4c, 0x46], ElfType.Executable,
      [⟨true, 4100, 10, 4, 0, ⟨true, false, true⟩⟩], [0, 0, 0, 0]⟩
    ⟨true, 4100, 10, 4, 0, ⟨true, false, true⟩⟩ 0 rfl rfl rfl rfl
    (by decide) (by decide) (by decide)

/-- The initial scan over a zero-filled buffer stops immediately: the
first record slot holds `d_reclen = 0` (and past-the-end start offsets
stop the walk with the same result). -/
theorem scanExisting_zero_buffer (len fuel off cnt : Nat) (hf : 0 < fuel) :
    scanExisting (fun _ => 0) len fuel off cnt = some (off, cnt) := by
  match fuel, hf with
  | fuel + 1, _ =>
      simp [scanExisting, readU16]

/-- Running `sys_getdents64` with a large-enough buffer whose initial scan ends
at `(initial_offset, count)` runs the serialization phase from there. -/
theorem sys_getdents64_eq_serialize (entries : List (List Nat × Nat))
    (initBuf : ByteBuf) (len i c : Nat)
    (hlen : ¬len < DirEnt.FIXED_SIZE)
    (hscan : scanExisting initBuf len len 0 0 = some (i, c)) :
    sys_getdents64 entries initBuf len
      = some (gdSerialize entries initBuf len i c) := by
  unfold sys_getdents64
  rw [if_neg hlen, hscan]

/-- Decoding is fuel-monotone: a chain decoded within `n` records is
decoded identically with any fuel `m ≥ n`. -/
theorem decodeRecords_mono (f : ByteBuf) :
    ∀ (n m off : Nat) (r : List DecRecord × DecRecord), n ≤ m →
      decodeRecords f n off = some r → decodeRecords f m off = some r := by
  intro n
  induction n with
  | zero => intro m off r _ h; simp [decodeRecords] at h
  | succ n ih =>
      intro m off r hnm h
      obtain ⟨m', rfl⟩ : ∃ m', m = m' + 1 := ⟨m - 1, by omega⟩
      by_cases hr : readU16 f (off + 16) = 0
      · rw [decodeRecords, if_pos hr] at h
        rw [decodeRecords, if_pos hr]
        exact h
      · rw [decodeRecords, if_neg hr] at h
        rw [decodeRecords, if_neg hr]
        cases hd : decodeRecords f n (off + readU16 f (off + 16)) with
        | none => rw [hd] at h; exact absurd h (by simp)
        | some p =>
            rw [hd] at h
            rw [ih m' (off + readU16 f (off + 16)) p (by omega) hd]
            exact h

/-- C8: serializing a directory containing exactly the entries
`{"a", "bb"}` (as regular files) into a zero-initialised caller buffer
of any sufficient size (≥ 62 bytes) produces, in listing order, exactly
two records in the fixed 19-byte-header layout with names `"a\0"` and
`"bb\0"`, followed by a zero-length terminal record, and the returned
total consumed byte count equals the sum of the two records' declared
`d_reclen` values (21 + 22 = 43). -/
theorem C8_getdents_two_entries (k : Nat) :
    ∃ fb : ByteBuf,
      sys_getdents64 [([97], 8), ([98, 98], 8)] (fun _ => 0) (k + 62)
        = some (fb, 43)
      ∧ decodeRecords fb (k + 62) 0
          = some ([⟨1, 21, 21, 8, [97, 0]⟩, ⟨1, 43, 22, 8, [98, 98, 0]⟩],
              ⟨1, 43, 0, 8, []⟩)
      ∧ (43 : Int) = (21 : Int) + 22 := by
  have hser :
      gdSerialize [([97], 8), ([98, 98], 8)] (fun _ => 0) (k + 62) 0 0
        = (writeBytes
            (writeBytes
              (writeBytes (fun _ => 0) 0
                (DirEnt.headerBytes ⟨1, 21, 21, 8⟩ ++ [97, 0]))
              21 (DirEnt.headerBytes ⟨1, 43, 22, 8⟩ ++ [98, 98, 0]))
            43 (DirEnt.headerBytes ⟨1, 43, 0, 8⟩ ++ []), 43) := by
    simp only [gdSerialize, writeEntries, DirBuffer.write_entry,
      DirBuffer.can_fit_entry, DirBuffer.remaining_space, DirEnt.FIXED_SIZE,
      List.drop_zero, List.cons_append, List.nil_append, List.length_cons,
      List.length_nil]
    split_ifs <;> first | rfl | (exfalso; simp_all)
  refine ⟨writeBytes
      (writeBytes
        (writeBytes (fun _ => 0) 0
          (DirEnt.headerBytes ⟨1, 21, 21, 8⟩ ++ [97, 0]))
        21 (DirEnt.headerBytes ⟨1, 43, 22, 8⟩ ++ [98, 98, 0]))
      43 (DirEnt.headerBytes ⟨1, 43, 0, 8⟩ ++ []), ?_, ?_, by norm_num⟩
  · rw [sys_getdents64_eq_serialize _ _ _ 0 0
        (by simp only [DirEnt.FIXED_SIZE]; omega)
        (scanExisting_zero_buffer (k + 62) (k + 62) 0 0 (by omega)),
      hser]
  · exact decodeRecords_mono _ 3 (k + 62) 0 _ (by omega) (by decide)
